import Mathlib

/-!
Shallow embedding of the MST data-reduction and curve-fitting engine
(`MST_ultimateGUI_NT_V5.py`) over exact rational / real arithmetic, together
with theorems settling the frozen claims about it.

Conventions of the embedding:
* Python floats are modelled as `ℚ` wherever the computation stays in the
  field operations, and as `ℝ` where a square root or power appears.
* A float `NaN` (undefined mean, undefined SEM, the guarded Kd-model output)
  is modelled as `none` of an `Option`; the `np.isnan` filter of the reducer
  becomes filtering on `Option`.
-/

namespace MST

/-- One sample row of a raw MST trace: time [s], fluorescence ratio and
capillary position (the three columns `recalculate_all_fnorms` consumes). -/
structure Sample where
  time : ℚ
  ratio : ℚ
  cap : ℚ
deriving DecidableEq, Repr

/-- Ascending sort of a rational list (models the Python builtin sort). -/
def sortRat (l : List ℚ) : List ℚ := l.insertionSort (· ≤ ·)

/-- Distinct capillary positions of a trace in ascending order: the sorted
unique values of the capillary-position column. -/
def uniqueCaps (samples : List Sample) : List ℚ :=
  sortRat (samples.map Sample.cap).dedup

/-- The ladder `expected_concentrations = [max_conc / (dilution ** i) for i in range(16)]`
from `recalculate_all_fnorms`. -/
def expectedConcentrations (maxConc dilution : ℚ) : List ℚ :=
  (List.range 16).map (fun i => maxConc / dilution ^ i)

/-- Samples of one capillary group: the rows whose capillary position equals
the given value. -/
def capGroup (samples : List Sample) (c : ℚ) : List Sample :=
  samples.filter (fun x => decide (x.cap = c))

/-- The ratio values whose time lies in the window `[s, e]` (the source
filters with `Time >= start` and `Time <= end`, both bounds inclusive). -/
def windowVals (g : List Sample) (s e : ℚ) : List ℚ :=
  (g.filter (fun x => decide (s ≤ x.time ∧ x.time ≤ e))).map Sample.ratio

/-- Mean of the in-window ratios; `none` models the `NaN` that
`pandas.Series.mean()` returns on an empty selection. -/
def windowMean (g : List Sample) (s e : ℚ) : Option ℚ :=
  let v := windowVals g s e
  if v.length = 0 then none else some (v.sum / v.length)

/-- Fnorm computation `F1 / F0 if F0 not in [np.nan, 0] else np.nan`, with the `NaN`
propagation of the surrounding code: the result is defined exactly when both
window means are defined and the F0 mean is nonzero. -/
def capFnorm (g : List Sample) (f0s f0e f1s f1e : ℚ) : Option ℚ :=
  match windowMean g f0s f0e, windowMean g f1s f1e with
  | some F0, some F1 => if F0 = 0 then none else some (F1 / F0)
  | _, _ => none

/-- The `(concentration, Fnorm)` point produced by the `i`-th capillary group
(ascending capillary order) of one trace; `none` when the loop body of
`recalculate_all_fnorms` appends nothing for that group (ladder exhausted,
undefined/zero F0 mean, undefined Fnorm, or non-positive concentration). -/
def reducePoint (samples : List Sample) (ladder : List ℚ)
    (f0s f0e f1s f1e : ℚ) (i : ℕ) : Option (ℚ × ℚ) :=
  if i < (uniqueCaps samples).length ∧ i < ladder.length then
    let conc := ladder.getD i 0
    match capFnorm (capGroup samples ((uniqueCaps samples).getD i 0)) f0s f0e f1s f1e with
    | some fn => if 0 < conc then some (conc, fn) else none
    | none => none
  else none

/-- The full per-file reduction loop of `recalculate_all_fnorms`: the ordered
list of `(concentration, Fnorm)` points over the capillary groups. -/
def reduceFile (samples : List Sample) (ladder : List ℚ)
    (f0s f0e f1s f1e : ℚ) : List (ℚ × ℚ) :=
  (List.range (uniqueCaps samples).length).filterMap
    (reducePoint samples ladder f0s f0e f1s f1e)

/-- Modelled from the wording of the spec (refinement comparison only): window means
with a half-open window `[s, e)`, i.e. a sample at `time = e` is excluded.
The source code uses the closed window `[s, e]` instead. -/
def windowMeanHalfOpen (g : List Sample) (s e : ℚ) : Option ℚ :=
  let v := (g.filter (fun x => decide (s ≤ x.time ∧ x.time < e))).map Sample.ratio
  if v.length = 0 then none else some (v.sum / v.length)

/-- Modelled from the wording of the spec (refinement comparison only): the Fnorm of
a capillary group with half-open windows. -/
def capFnormHalfOpen (g : List Sample) (f0s f0e f1s f1e : ℚ) : Option ℚ :=
  match windowMeanHalfOpen g f0s f0e, windowMeanHalfOpen g f1s f1e with
  | some F0, some F1 => if F0 = 0 then none else some (F1 / F0)
  | _, _ => none

/-- Length of the ladder is its declared 16. -/
lemma expectedConcentrations_length (maxConc dilution : ℚ) :
    (expectedConcentrations maxConc dilution).length = 16 := by
  simp [expectedConcentrations]

/-- Closed form of the `i`-th ladder entry. -/
lemma expectedConcentrations_getD (maxConc dilution : ℚ) {i : ℕ} (hi : i < 16) :
    (expectedConcentrations maxConc dilution).getD i 0 = maxConc / dilution ^ i := by
  rw [List.getD_eq_getElem _ _ (by simpa [expectedConcentrations_length] using hi)]
  simp [expectedConcentrations]

/-- C6: the concentration ladder has exactly 16 elements, element `i`
equals `max_concentration / dilution_factor ^ i`, it is strictly decreasing
for `max_concentration > 0` and `dilution_factor > 1`, and for
`max_concentration = 100e-3` M, `dilution_factor = 2.0` the first two entries
are `0.1` and `0.05`. -/
theorem ladder_geometric_descending :
    (∀ maxConc dilution : ℚ, 0 < maxConc → 1 < dilution →
      (expectedConcentrations maxConc dilution).length = 16
      ∧ (∀ i, i < 16 →
          (expectedConcentrations maxConc dilution).getD i 0 = maxConc / dilution ^ i)
      ∧ (∀ i j, i < j → j < 16 →
          (expectedConcentrations maxConc dilution).getD j 0
            < (expectedConcentrations maxConc dilution).getD i 0))
    ∧ (expectedConcentrations (1/10) 2).getD 0 0 = 1/10
    ∧ (expectedConcentrations (1/10) 2).getD 1 0 = 1/20 := by
  refine ⟨fun maxConc dilution hm hd => ?_, ?_, ?_⟩
  · refine ⟨expectedConcentrations_length maxConc dilution,
      fun i hi => expectedConcentrations_getD maxConc dilution hi,
      fun i j hij hj => ?_⟩
    rw [expectedConcentrations_getD maxConc dilution (lt_trans hij hj),
      expectedConcentrations_getD maxConc dilution hj]
    have hdpos : (0:ℚ) < dilution := lt_trans one_pos hd
    have hpow : dilution ^ i < dilution ^ j := pow_lt_pow_right₀ hd hij
    exact div_lt_div_of_pos_left hm (pow_pos hdpos i) hpow
  · rw [expectedConcentrations_getD _ _ (by norm_num)]; norm_num
  · rw [expectedConcentrations_getD _ _ (by norm_num)]; norm_num

/-- A concrete trace whose F0-window (`[-1.5, 0]`) ratio samples are
`[1, 1, 1]` and whose F1-window (`[2.5, 4]`) ratio samples are `[2, 2]`,
all in capillary 1, with no sample on a window boundary. -/
def exC1 : List Sample :=
  [⟨-6/5, 1, 1⟩, ⟨-4/5, 1, 1⟩, ⟨-2/5, 1, 1⟩, ⟨3, 2, 1⟩, ⟨7/2, 2, 1⟩]

/-- A concrete trace with a sample exactly at the end of the F0 window
(`[0, 1]`): samples (time, ratio) = (0,1), (1,3) and an F1-window (`[2, 3]`)
sample (2,4), all in capillary 1. -/
def exBoundary : List Sample := [⟨0, 1, 1⟩, ⟨1, 3, 1⟩, ⟨2, 4, 1⟩]

/-- C1 counterexample: the claim says a sample whose time equals the
end of a window does not contribute (half-open window). On `exBoundary` the code
includes the `time = 1` sample in the F0 window `[0, 1]` and reduces to
`Fnorm = 2`, while the half-open reading of the spec would give `Fnorm = 4`. -/
theorem fnorm_half_open_window_counterexample :
    reduceFile exBoundary [1] 0 1 2 3 = [(1, 2)]
    ∧ capFnormHalfOpen (capGroup exBoundary 1) 0 1 2 3 = some 4
    ∧ (2:ℚ) ≠ 4 := by
  refine ⟨?_, ?_, by norm_num⟩
  · norm_num [reduceFile, reducePoint, uniqueCaps, sortRat, exBoundary,
      List.insertionSort, List.orderedInsert, List.dedup_cons_of_mem,
      List.dedup_cons_of_not_mem, capFnorm, capGroup, windowMean, windowVals,
      List.filter, List.range_succ, List.filterMap_cons, List.filterMap_nil]
  · norm_num [capFnormHalfOpen, windowMeanHalfOpen, capGroup, exBoundary,
      List.filter]

/-- C1 amended: for every capillary group reduced by the trace reducer,
Fnorm equals the mean of the ratio values over samples whose time lies in the
closed F1 window `[start, end]` divided by the mean over samples whose time
lies in the closed F0 window `[start, end]` (both window bounds inclusive);
a trace with F0-window samples `[1, 1, 1]` and F1-window samples `[2, 2]`
yields Fnorm = 2 exactly. -/
theorem fnorm_closed_window_reduction :
    (∀ (samples : List Sample) (ladder : List ℚ) (f0s f0e f1s f1e : ℚ) (i : ℕ)
        (conc fn : ℚ),
      reducePoint samples ladder f0s f0e f1s f1e i = some (conc, fn) →
      ∃ F0 F1,
        windowMean (capGroup samples ((uniqueCaps samples).getD i 0)) f0s f0e = some F0
        ∧ F0 ≠ 0
        ∧ windowMean (capGroup samples ((uniqueCaps samples).getD i 0)) f1s f1e = some F1
        ∧ fn = F1 / F0 ∧ conc = ladder.getD i 0 ∧ 0 < conc)
    ∧ reduceFile exC1 [1] (-(3/2)) 0 (5/2) 4 = [(1, 2)] := by
  constructor
  · intro samples ladder f0s f0e f1s f1e i conc fn hp
    rw [reducePoint] at hp
    by_cases hcond : i < (uniqueCaps samples).length ∧ i < ladder.length
    · rw [if_pos hcond] at hp
      cases hcf : capFnorm (capGroup samples ((uniqueCaps samples).getD i 0))
          f0s f0e f1s f1e with
      | none => rw [hcf] at hp; simp at hp
      | some v =>
        rw [hcf] at hp
        simp only [] at hp
        by_cases hpos : 0 < ladder.getD i 0
        · rw [if_pos hpos] at hp
          have hv : ladder.getD i 0 = conc ∧ v = fn := by
            simpa using hp
          rw [capFnorm] at hcf
          cases hw0 : windowMean (capGroup samples ((uniqueCaps samples).getD i 0))
              f0s f0e with
          | none => rw [hw0] at hcf; simp at hcf
          | some F0 =>
            cases hw1 : windowMean (capGroup samples ((uniqueCaps samples).getD i 0))
                f1s f1e with
            | none => rw [hw0, hw1] at hcf; simp at hcf
            | some F1 =>
              rw [hw0, hw1] at hcf
              by_cases hF0 : F0 = 0
              · simp [hF0] at hcf
              · simp [hF0] at hcf
                exact ⟨F0, F1, rfl, hF0, rfl, by rw [← hv.2, ← hcf],
                  hv.1.symm, by rw [hv.1] at hpos; exact hpos⟩
        · rw [if_neg hpos] at hp; simp at hp
    · rw [if_neg hcond] at hp; simp at hp
  · norm_num [reduceFile, reducePoint, uniqueCaps, sortRat, exC1,
      List.insertionSort, List.orderedInsert, List.dedup_cons_of_mem,
      List.dedup_cons_of_not_mem, capFnorm, capGroup, windowMean, windowVals,
      List.filter, List.range_succ, List.filterMap_cons, List.filterMap_nil]

/-- Witness for C1 (amended): the reducer on `exC1` emits `(1, 2)`, and the
general conjunct applied there recovers F0 = 1, F1 = 2. -/
theorem fnorm_closed_window_reduction_witness :
    ∃ F0 F1,
      windowMean (capGroup exC1 ((uniqueCaps exC1).getD 0 0)) (-(3/2)) 0 = some F0
      ∧ F0 ≠ 0
      ∧ windowMean (capGroup exC1 ((uniqueCaps exC1).getD 0 0)) (5/2) 4 = some F1
      ∧ (2:ℚ) = F1 / F0 ∧ (1:ℚ) = ([1] : List ℚ).getD 0 0 ∧ (0:ℚ) < 1 :=
  fnorm_closed_window_reduction.1 exC1 [1] (-(3/2)) 0 (5/2) 4 0 1 2 (by
    norm_num [reducePoint, uniqueCaps, sortRat, exC1,
      List.insertionSort, List.orderedInsert, List.dedup_cons_of_mem,
      List.dedup_cons_of_not_mem, capFnorm, capGroup, windowMean, windowVals,
      List.filter])

/-- C3: for a capillary group whose index is within both the capillary
list and the ladder, the reducer emits no point exactly when the F0-window
mean is undefined, the F0-window mean is zero, the Fnorm is undefined (the
`NaN` outcome), or the assigned ladder concentration is non-positive; every
other group yields exactly one point, carrying its ladder concentration. -/
theorem reducer_discard_iff :
    ∀ (samples : List Sample) (ladder : List ℚ) (f0s f0e f1s f1e : ℚ) (i : ℕ),
      i < (uniqueCaps samples).length → i < ladder.length →
      (reducePoint samples ladder f0s f0e f1s f1e i = none ↔
        (windowMean (capGroup samples ((uniqueCaps samples).getD i 0)) f0s f0e = none
          ∨ windowMean (capGroup samples ((uniqueCaps samples).getD i 0)) f0s f0e = some 0
          ∨ capFnorm (capGroup samples ((uniqueCaps samples).getD i 0)) f0s f0e f1s f1e = none
          ∨ ladder.getD i 0 ≤ 0))
      ∧ (∀ p, reducePoint samples ladder f0s f0e f1s f1e i = some p →
          p.1 = ladder.getD i 0) := by
  intro samples ladder f0s f0e f1s f1e i hi hl
  constructor
  · rw [reducePoint, if_pos ⟨hi, hl⟩]
    cases hw0 : windowMean (capGroup samples ((uniqueCaps samples).getD i 0)) f0s f0e with
    | none =>
      have hcf : capFnorm (capGroup samples ((uniqueCaps samples).getD i 0))
          f0s f0e f1s f1e = none := by
        rw [capFnorm, hw0]
      rw [hcf]; simp
    | some F0 =>
      cases hw1 : windowMean (capGroup samples ((uniqueCaps samples).getD i 0)) f1s f1e with
      | none =>
        have hcf : capFnorm (capGroup samples ((uniqueCaps samples).getD i 0))
            f0s f0e f1s f1e = none := by
          rw [capFnorm, hw0, hw1]
        rw [hcf]; simp
      | some F1 =>
        by_cases hF0 : F0 = 0
        · have hcf : capFnorm (capGroup samples ((uniqueCaps samples).getD i 0))
              f0s f0e f1s f1e = none := by
            rw [capFnorm, hw0, hw1]
            simp [hF0]
          rw [hcf]; simp [hw0, hF0]
        · have hcf : capFnorm (capGroup samples ((uniqueCaps samples).getD i 0))
              f0s f0e f1s f1e = some (F1 / F0) := by
            rw [capFnorm, hw0, hw1]
            simp [hF0]
          rw [hcf]
          simp only [hw0, hcf]
          constructor
          · intro h
            by_cases hpos : 0 < ladder.getD i 0
            · rw [if_pos hpos] at h; simp at h
            · exact Or.inr (Or.inr (Or.inr (not_lt.mp hpos)))
          · intro h
            rcases h with h | h | h | h
            · simp at h
            · exact absurd (Option.some.inj h) hF0
            · simp at h
            · rw [if_neg (not_lt.mpr h)]
  · intro p hp
    rw [reducePoint, if_pos ⟨hi, hl⟩] at hp
    cases hcf : capFnorm (capGroup samples ((uniqueCaps samples).getD i 0))
        f0s f0e f1s f1e with
    | none => rw [hcf] at hp; simp at hp
    | some v =>
      rw [hcf] at hp
      simp only [] at hp
      by_cases hpos : 0 < ladder.getD i 0
      · rw [if_pos hpos] at hp
        have hv := Option.some.inj hp
        rw [← hv]
      · rw [if_neg hpos] at hp
        simp at hp

/-- Witness for C3 on the concrete trace `exBoundary` with ladder `[1]`. -/
theorem reducer_discard_iff_witness :
    0 < (uniqueCaps exBoundary).length ∧ 0 < ([(1:ℚ)]).length
    ∧ ((reducePoint exBoundary [1] 0 1 2 3 0 = none ↔
        (windowMean (capGroup exBoundary ((uniqueCaps exBoundary).getD 0 0)) 0 1 = none
          ∨ windowMean (capGroup exBoundary ((uniqueCaps exBoundary).getD 0 0)) 0 1 = some 0
          ∨ capFnorm (capGroup exBoundary ((uniqueCaps exBoundary).getD 0 0)) 0 1 2 3 = none
          ∨ ([(1:ℚ)]).getD 0 0 ≤ 0))
      ∧ (∀ p, reducePoint exBoundary [1] 0 1 2 3 0 = some p →
          p.1 = ([(1:ℚ)]).getD 0 0)) := by
  have h1 : 0 < (uniqueCaps exBoundary).length := by
    norm_num [uniqueCaps, sortRat, exBoundary, List.insertionSort,
      List.orderedInsert, List.dedup_cons_of_mem, List.dedup_cons_of_not_mem]
  exact ⟨h1, by norm_num,
    reducer_discard_iff exBoundary [1] 0 1 2 3 0 h1 (by norm_num)⟩

/-- The exclusion toggle of `on_pick` (source lines 337-344): if the picked
original index is in `excluded_indices` remove it, otherwise add it. -/
def toggleExclusion (s : Finset ℕ) (i : ℕ) : Finset ℕ :=
  if i ∈ s then s.erase i else insert i s

/-- Membership characterisation of one toggle. -/
lemma mem_toggleExclusion (s : Finset ℕ) (i m : ℕ) :
    m ∈ toggleExclusion s i ↔ (m = i ∧ i ∉ s) ∨ (m ≠ i ∧ m ∈ s) := by
  unfold toggleExclusion
  by_cases hi : i ∈ s
  · rw [if_pos hi]
    simp only [Finset.mem_erase]
    constructor
    · intro h; exact Or.inr h
    · rintro (⟨_, h⟩ | h)
      · exact absurd hi h
      · exact h
  · rw [if_neg hi]
    simp only [Finset.mem_insert]
    constructor
    · intro h
      rcases h with h | h
      · exact Or.inl ⟨h, hi⟩
      · by_cases hmi : m = i
        · exact Or.inl ⟨hmi, hi⟩
        · exact Or.inr ⟨hmi, h⟩
    · rintro (⟨h, _⟩ | ⟨_, h⟩)
      · exact Or.inl h
      · exact Or.inr h

/-- Two toggles at distinct or equal indices commute. -/
lemma toggleExclusion_comm (s : Finset ℕ) (i j : ℕ) :
    toggleExclusion (toggleExclusion s i) j = toggleExclusion (toggleExclusion s j) i := by
  by_cases hij : i = j
  · subst hij; rfl
  · ext m
    by_cases hmi : m = i <;> by_cases hmj : m = j <;>
      simp [mem_toggleExclusion, hmi, hmj, hij, Ne.symm hij]

/-- C9: toggling the exclusion of a point twice returns the excluded-index
set to its original value, and the result of a sequence of toggles depends
only on the multiset of toggled indices, not on their order. -/
theorem exclusion_toggle_involutive_and_order_free :
    (∀ (s : Finset ℕ) (i : ℕ), toggleExclusion (toggleExclusion s i) i = s)
    ∧ (∀ (s : Finset ℕ) (l₁ l₂ : List ℕ), l₁.Perm l₂ →
        l₁.foldl toggleExclusion s = l₂.foldl toggleExclusion s) := by
  constructor
  · intro s i
    by_cases hi : i ∈ s
    · have h1 : toggleExclusion s i = s.erase i := if_pos hi
      rw [h1, toggleExclusion, if_neg (by simp), Finset.insert_erase hi]
    · have h1 : toggleExclusion s i = insert i s := if_neg hi
      rw [h1, toggleExclusion, if_pos (Finset.mem_insert_self i s),
        Finset.erase_insert hi]
  · intro s l₁ l₂ hperm
    induction hperm generalizing s with
    | nil => rfl
    | cons x _ ih => simp only [List.foldl_cons]; exact ih _
    | swap x y l =>
      simp only [List.foldl_cons]
      rw [toggleExclusion_comm]
    | trans _ _ ih₁ ih₂ => rw [ih₁ s, ih₂ s]

/-- Witness for C9: double toggle at index 3 on the empty set, and the two
orders of toggling indices 1 and 2. -/
theorem exclusion_toggle_involutive_and_order_free_witness :
    toggleExclusion (toggleExclusion ∅ 3) 3 = ∅
    ∧ [1, 2].foldl toggleExclusion ∅ = [2, 1].foldl toggleExclusion ∅ :=
  ⟨exclusion_toggle_involutive_and_order_free.1 ∅ 3,
    exclusion_toggle_involutive_and_order_free.2 ∅ [1, 2] [2, 1]
      (List.Perm.swap 2 1 [])⟩

/-- Embedding of `kd_model` (quadratic target-depletion binding model, source lines 24-45).
The `np.any(c_target == 0)` guard returning an all-NaN result is modelled by
`none`; `np.maximum(0, d)` is `max 0 d`; `np.clip(x, 0, 1)` is
`min 1 (max 0 x)`. -/
noncomputable def kd_model (cLigand unbound bound kd cTarget : ℝ) : Option ℝ :=
  if cTarget = 0 then none
  else
    let discriminant := (cLigand + cTarget + kd) ^ 2 - 4 * cLigand * cTarget
    let numerator := (cLigand + cTarget + kd) - Real.sqrt (max 0 discriminant)
    let fractionBound := numerator / (2 * cTarget)
    some (unbound + (bound - unbound) * (min 1 (max 0 fractionBound)))

/-- Embedding of `binding_curve` (Hill model on log-concentrations, source lines 16-21). -/
noncomputable def binding_curve (logConc bottom top logKd hillSlope : ℝ) : ℝ :=
  bottom + (top - bottom) / (1 + (10:ℝ) ^ ((logKd - logConc) * hillSlope))

/-- Embedding of `dose_response_curve` (4-parameter logistic, source lines 48-54). -/
noncomputable def dose_response_curve (logConc bottom top logEc50 hillSlope : ℝ) : ℝ :=
  bottom + (top - bottom) / (1 + (10:ℝ) ^ ((logEc50 - logConc) * hillSlope))

/-- C5: for target concentration `T > 0`, Kd parameter `k ≥ 0`, and any
unbound/bound pair, the quadratic Kd model at ligand concentration 0 returns
exactly `unbound`: the discriminant is `(T+k)^2`, its square root `T+k`, the
numerator 0, so the clamped fraction bound is 0. -/
theorem kd_model_zero_ligand :
    ∀ (T k u b : ℝ), 0 < T → 0 ≤ k → kd_model 0 u b k T = some u := by
  intro T k u b hT hk
  rw [kd_model, if_neg (ne_of_gt hT)]
  simp only []
  have e1 : (0 + T + k) ^ 2 - 4 * 0 * T = (T + k) ^ 2 := by ring
  have e2 : Real.sqrt (max 0 ((0 + T + k) ^ 2 - 4 * 0 * T)) = T + k := by
    rw [e1, max_eq_right (sq_nonneg _), Real.sqrt_sq (add_nonneg hT.le hk)]
  rw [e2]
  have e3 : (0 + T + k) - (T + k) = 0 := by ring
  rw [e3, zero_div]
  norm_num

/-- Witness for C5 at `T = 1`, `k = 0`, `unbound = 2`, `bound = 5`. -/
theorem kd_model_zero_ligand_witness :
    (0:ℝ) < 1 ∧ (0:ℝ) ≤ 0 ∧ kd_model 0 2 5 0 1 = some 2 :=
  ⟨one_pos, le_refl 0, kd_model_zero_ligand 1 0 2 5 one_pos (le_refl 0)⟩

/-- Mean of a list of rationals (a `pandas` group mean). -/
def listMean (l : List ℚ) : ℚ := l.sum / l.length

/-- Sample variance with `ddof = 1`: the square of the group `std` that
`pandas` computes in `_get_processed_group_data`. -/
def sampleVar (l : List ℚ) : ℚ :=
  ((l.map (fun x => (x - listMean l) ^ 2)).sum) / ((l.length : ℚ) - 1)

/-- The distinct concentrations of the collected replicate points in
ascending order (the pandas groupby sorts its concentration keys). -/
def groupConcs (rows : List (ℚ × ℚ)) : List ℚ :=
  sortRat (rows.map Prod.fst).dedup

/-- The Fnorm values collected at one concentration. -/
def groupVals (rows : List (ℚ × ℚ)) (c : ℚ) : List ℚ :=
  (rows.filter (fun r => decide (r.1 = c))).map Prod.snd

/-- SEM column `Fnorm_sem = Fnorm_std / sqrt(Replicate_Count) if Replicate_Count > 1
else np.nan` (source lines 750-753); the `NaN` is modelled by `none`. -/
noncomputable def groupSem (l : List ℚ) : Option ℝ :=
  if 1 < l.length then
    some (Real.sqrt ((sampleVar l : ℚ) : ℝ) / Real.sqrt ((l.length : ℕ) : ℝ))
  else none

/-- The two-replicate rows of C2: Fnorm 0.5 and 0.7 at concentration 1e-6. -/
def rowsC2 : List (ℚ × ℚ) := [(1/1000000, 1/2), (1/1000000, 7/10)]

/-- The square root of 2 exceeds 1. -/
lemma one_lt_sqrt_two : (1:ℝ) < Real.sqrt 2 := by
  nlinarith [Real.sq_sqrt (by norm_num : (0:ℝ) ≤ 2), Real.sqrt_nonneg 2]

/-- The Fnorm values of `rowsC2` at concentration 1e-6. -/
lemma groupVals_rowsC2 : groupVals rowsC2 (1/1000000) = [1/2, 7/10] := by
  norm_num [groupVals, rowsC2, List.filter]

/-- The SEM the code computes on `rowsC2` is exactly 1/10. -/
lemma groupSem_rowsC2 :
    groupSem (groupVals rowsC2 (1/1000000)) = some (1/10) := by
  rw [groupVals_rowsC2]
  have hvar : sampleVar [(1:ℚ)/2, 7/10] = 1/50 := by
    norm_num [sampleVar, listMean]
  rw [groupSem, if_pos (by norm_num)]
  rw [hvar]
  have h1 : (((1:ℚ)/50 : ℚ) : ℝ) = 1/50 := by norm_num
  have h2 : ((([(1:ℚ)/2, 7/10].length : ℕ)) : ℝ) = 2 := by norm_num
  rw [h1, h2, ← Real.sqrt_div (by norm_num : (0:ℝ) ≤ 1/50) 2]
  rw [show (1/50 : ℝ) / 2 = (1/10)^2 by norm_num, Real.sqrt_sq (by norm_num)]

/-- C2 counterexample: on two replicates with Fnorm 0.5 and 0.7 the code
computes mean 0.6 and SEM exactly 1/10, which differs from the claimed value
`|0.7-0.5|/2/sqrt(2)`. -/
theorem sem_two_replicates_counterexample :
    listMean (groupVals rowsC2 (1/1000000)) = 3/5
    ∧ groupSem (groupVals rowsC2 (1/1000000)) = some (1/10)
    ∧ (1/10 : ℝ) ≠ |(7/10 : ℝ) - 1/2| / 2 / Real.sqrt 2 := by
  refine ⟨?_, groupSem_rowsC2, ?_⟩
  · rw [groupVals_rowsC2]
    norm_num [listMean]
  · intro h
    have habs : |(7/10 : ℝ) - 1/2| = 1/5 := by
      rw [abs_of_pos (by norm_num)]; norm_num
    rw [habs] at h
    have hs : Real.sqrt 2 ≠ 0 :=
      ne_of_gt (lt_trans one_pos one_lt_sqrt_two)
    field_simp at h
    nlinarith [one_lt_sqrt_two]

/-- C2 amended: two replicates at one concentration with Fnorm 0.5 and
0.7 aggregate to mean 0.6 and SEM `|0.7-0.5|/2 = 0.1` (the sample standard
deviation divided by `sqrt(2)`); a concentration with exactly one
contributing point has an undefined (`NaN`) SEM; in general the SEM is the
sample standard deviation over `sqrt(n)` whenever `n ≥ 2`. -/
theorem sem_two_replicates_amended :
    (listMean (groupVals rowsC2 (1/1000000)) = 3/5
      ∧ groupSem (groupVals rowsC2 (1/1000000)) = some (|(7/10 : ℝ) - 1/2| / 2))
    ∧ (∀ l : List ℚ, l.length = 1 → groupSem l = none)
    ∧ (∀ l : List ℚ, 2 ≤ l.length →
        groupSem l =
          some (Real.sqrt ((sampleVar l : ℚ) : ℝ) / Real.sqrt ((l.length : ℕ) : ℝ))) := by
  refine ⟨⟨?_, ?_⟩, ?_, ?_⟩
  · rw [groupVals_rowsC2]; norm_num [listMean]
  · rw [groupSem_rowsC2]
    have habs : |(7/10 : ℝ) - 1/2| = 1/5 := by
      rw [abs_of_pos (by norm_num)]; norm_num
    rw [habs]
    norm_num
  · intro l hl
    rw [groupSem, if_neg (by omega)]
  · intro l hl
    rw [groupSem, if_pos (by omega)]

/-- Witness for C2 (amended): a one-element group has undefined SEM and a
two-element group gets `std / sqrt(2)`. -/
theorem sem_two_replicates_amended_witness :
    ([(5:ℚ)].length = 1 ∧ groupSem [(5:ℚ)] = none)
    ∧ (2 ≤ ([(0:ℚ), 1]).length
      ∧ groupSem [(0:ℚ), 1] =
          some (Real.sqrt ((sampleVar [(0:ℚ), 1] : ℚ) : ℝ)
            / Real.sqrt ((([(0:ℚ), 1]).length : ℕ) : ℝ))) :=
  ⟨⟨rfl, sem_two_replicates_amended.2.1 [5] rfl⟩,
    ⟨by norm_num, sem_two_replicates_amended.2.2 [0, 1] (by norm_num)⟩⟩

/-- The model selector of the GUI (`model_choice`). -/
inductive FitModel
  | hill
  | kd
  | doseResponse
deriving DecidableEq, Repr

/-- The comment naming the fitted model on success. -/
def modelComment : FitModel → String
  | .hill => "Hill Model"
  | .kd => "Kd Model"
  | .doseResponse => "Dose-Response Model"

/-- The slice of the result dictionary of `_get_processed_group_data` that the
claims are about. -/
structure ProcessedResult where
  hasData : Bool
  aggConcs : List ℚ
  aggMeans : List ℚ
  aggCounts : List ℕ
  fitSuccess : Bool
  fitComment : String
  fitPopt : Option (List ℚ)
deriving Repr, DecidableEq

/-- Result of the dropna on the Fnorm column: the collected points whose
Fnorm is defined. -/
def validPoints (points : List (ℚ × Option ℚ)) : List (ℚ × ℚ) :=
  points.filterMap (fun p => p.2.map (fun f => (p.1, f)))

/-- Embedding of `_get_processed_group_data` after the per-point exclusion filtering:
`points` are the collected `(concentration, fnorm)` pairs of the selected
replicates, with an undefined Fnorm modelled as `none` (dropped by the
`dropna`). The bounded nonlinear least-squares call (`scipy.curve_fit`) is
abstracted as the `fitter` argument: `.ok popt` is a successful fit and
`.error e` a raised-and-caught `RuntimeError`/`ValueError`; the model-choice
branching only selects which fit is run, so the abstraction passes the model
through. The affinity transform `10 ** popt[2]` of the success branches is
not modelled (no claim mentions it). -/
def processedGroupData
    (fitter : FitModel → List ℚ → List ℚ → Except String (List ℚ))
    (model : FitModel) (points : List (ℚ × Option ℚ)) : ProcessedResult :=
  if points.isEmpty then
    { hasData := false, aggConcs := [], aggMeans := [], aggCounts := [],
      fitSuccess := false,
      fitComment := "No included data points for fitting in this group.",
      fitPopt := none }
  else
    let valid := validPoints points
    if valid.isEmpty then
      { hasData := false, aggConcs := [], aggMeans := [], aggCounts := [],
        fitSuccess := false,
        fitComment := "No valid Fnorm data after filtering for this group.",
        fitPopt := none }
    else
      let concs := groupConcs valid
      let means := concs.map (fun c => listMean (groupVals valid c))
      let counts := concs.map (fun c => (groupVals valid c).length)
      if 3 ≤ means.length then
        match fitter model concs means with
        | .ok popt =>
          { hasData := true, aggConcs := concs, aggMeans := means,
            aggCounts := counts, fitSuccess := true,
            fitComment := modelComment model, fitPopt := some popt }
        | .error e =>
          { hasData := true, aggConcs := concs, aggMeans := means,
            aggCounts := counts, fitSuccess := false,
            fitComment := "Fit failed: " ++ e, fitPopt := none }
      else
        { hasData := true, aggConcs := concs, aggMeans := means,
          aggCounts := counts, fitSuccess := false,
          fitComment := "Not enough unique data points for fit (need >= 3).",
          fitPopt := none }

/-- C4: for every model choice and every fit outcome, a dataset with at
least one defined-Fnorm point but fewer than 3 distinct concentrations makes
the fitter return `success = false` with the insufficient-points comment,
raises no exception (the function is total), and still returns the
aggregated mean points. -/
theorem insufficient_points_refusal :
    ∀ (fitter : FitModel → List ℚ → List ℚ → Except String (List ℚ))
      (model : FitModel) (points : List (ℚ × Option ℚ)),
      validPoints points ≠ [] →
      (groupConcs (validPoints points)).length < 3 →
      (processedGroupData fitter model points).fitSuccess = false
      ∧ (processedGroupData fitter model points).fitComment =
          "Not enough unique data points for fit (need >= 3)."
      ∧ (processedGroupData fitter model points).hasData = true
      ∧ (processedGroupData fitter model points).aggConcs =
          groupConcs (validPoints points)
      ∧ (processedGroupData fitter model points).aggMeans =
          (groupConcs (validPoints points)).map
            (fun c => listMean (groupVals (validPoints points) c)) := by
  intro fitter model points hvne hlt
  have hpoints : points ≠ [] := fun h => hvne (by simp [validPoints, h])
  have h1 : ¬ (points.isEmpty = true) := by
    simpa [List.isEmpty_iff] using hpoints
  have h2 : ¬ ((validPoints points).isEmpty = true) := by
    simpa [List.isEmpty_iff] using hvne
  have h3 : ¬ (3 ≤ ((groupConcs (validPoints points)).map
      (fun c => listMean (groupVals (validPoints points) c))).length) := by
    rw [List.length_map]; omega
  rw [processedGroupData, if_neg h1]
  try simp only []
  rw [if_neg h2]
  try simp only []
  rw [if_neg h3]
  exact ⟨rfl, rfl, rfl, rfl, rfl⟩

/-- Two points at two distinct concentrations, both with defined Fnorm. -/
def ptsC4 : List (ℚ × Option ℚ) := [(1/1000000, some 1), (1/2000000, some 2)]

/-- Witness for C4: with exactly 2 distinct concentrations, under any model
choice and a fit stub, the refusal branch is taken. -/
theorem insufficient_points_refusal_witness :
    validPoints ptsC4 ≠ []
    ∧ (groupConcs (validPoints ptsC4)).length < 3
    ∧ ((processedGroupData (fun _ _ _ => Except.error "") FitModel.hill ptsC4).fitSuccess = false
      ∧ (processedGroupData (fun _ _ _ => Except.error "") FitModel.hill ptsC4).fitComment =
          "Not enough unique data points for fit (need >= 3)."
      ∧ (processedGroupData (fun _ _ _ => Except.error "") FitModel.hill ptsC4).hasData = true
      ∧ (processedGroupData (fun _ _ _ => Except.error "") FitModel.hill ptsC4).aggConcs =
          groupConcs (validPoints ptsC4)
      ∧ (processedGroupData (fun _ _ _ => Except.error "") FitModel.hill ptsC4).aggMeans =
          (groupConcs (validPoints ptsC4)).map
            (fun c => listMean (groupVals (validPoints ptsC4) c))) := by
  have hv : validPoints ptsC4 = [(1/1000000, 1), (1/2000000, 2)] := by
    simp [validPoints, ptsC4]
  have hne : validPoints ptsC4 ≠ [] := by rw [hv]; simp
  have hlen : (groupConcs (validPoints ptsC4)).length < 3 := by
    rw [hv]
    norm_num [groupConcs, sortRat, List.insertionSort, List.orderedInsert,
      List.dedup_cons_of_mem, List.dedup_cons_of_not_mem]
  exact ⟨hne, hlen,
    insufficient_points_refusal (fun _ _ _ => Except.error "") FitModel.hill
      ptsC4 hne hlen⟩

/-- Embedding of `np.min` over a list; the code only applies it to nonempty data (0 is a
junk default for the empty case). -/
def npMin : List ℚ → ℚ
  | [] => 0
  | x :: xs => xs.foldl min x

/-- Embedding of `np.max` over a list. -/
def npMax : List ℚ → ℚ
  | [] => 0
  | x :: xs => xs.foldl max x

/-- Embedding of `np.clip(x, lo, hi)`: maximum with `lo` first, then minimum with `hi`. -/
def npClip (x lo hi : ℚ) : ℚ := min hi (max lo x)

/-- Embedding of `np.median`: middle element of the ascending sort, or the average of the
two middle elements for even length. -/
def npMedian (l : List ℚ) : ℚ :=
  let s := sortRat l
  let n := s.length
  if n % 2 = 1 then s.getD (n / 2) 0
  else (s.getD (n / 2 - 1) 0 + s.getD (n / 2) 0) / 2

lemma foldl_min_le_init (xs : List ℚ) (a : ℚ) : xs.foldl min a ≤ a := by
  induction xs generalizing a with
  | nil => simp
  | cons x xs ih => exact le_trans (ih (min a x)) (min_le_left a x)

lemma foldl_min_le_mem (xs : List ℚ) (a y : ℚ) (hy : y ∈ xs) :
    xs.foldl min a ≤ y := by
  induction xs generalizing a with
  | nil => cases hy
  | cons x xs ih =>
    rcases List.mem_cons.mp hy with h | h
    · subst h
      exact le_trans (foldl_min_le_init xs (min a y)) (min_le_right a y)
    · exact ih (min a x) h

lemma init_le_foldl_max (xs : List ℚ) (a : ℚ) : a ≤ xs.foldl max a := by
  induction xs generalizing a with
  | nil => simp
  | cons x xs ih => exact le_trans (le_max_left a x) (ih (max a x))

lemma mem_le_foldl_max (xs : List ℚ) (a y : ℚ) (hy : y ∈ xs) :
    y ≤ xs.foldl max a := by
  induction xs generalizing a with
  | nil => cases hy
  | cons x xs ih =>
    rcases List.mem_cons.mp hy with h | h
    · subst h
      exact le_trans (le_max_right a y) (init_le_foldl_max xs (max a y))
    · exact ih (max a x) h

lemma npMin_le_mem (l : List ℚ) (y : ℚ) (hy : y ∈ l) : npMin l ≤ y := by
  cases l with
  | nil => cases hy
  | cons x xs =>
    rcases List.mem_cons.mp hy with h | h
    · subst h; exact foldl_min_le_init xs y
    · exact foldl_min_le_mem xs x y h

lemma mem_le_npMax (l : List ℚ) (y : ℚ) (hy : y ∈ l) : y ≤ npMax l := by
  cases l with
  | nil => cases hy
  | cons x xs =>
    rcases List.mem_cons.mp hy with h | h
    · subst h; exact init_le_foldl_max xs y
    · exact mem_le_foldl_max xs x y h

lemma npMin_le_npMax (l : List ℚ) (h : l ≠ []) : npMin l ≤ npMax l := by
  cases l with
  | nil => exact absurd rfl h
  | cons x xs =>
    exact le_trans (foldl_min_le_init xs x) (init_le_foldl_max xs x)

lemma sortRat_perm (l : List ℚ) : (sortRat l).Perm l :=
  List.perm_insertionSort _ l

lemma sortRat_length (l : List ℚ) : (sortRat l).length = l.length :=
  (sortRat_perm l).length_eq

lemma getD_mem_of_lt (l : List ℚ) (i : ℕ) (h : i < l.length) :
    l.getD i 0 ∈ l := by
  rw [List.getD_eq_getElem _ _ h]
  exact List.getElem_mem h

/-- The median of a nonempty list lies between its minimum and maximum. -/
lemma npMedian_mem_range (l : List ℚ) (h : l ≠ []) :
    npMin l ≤ npMedian l ∧ npMedian l ≤ npMax l := by
  have hlen : 0 < l.length := List.length_pos.mpr h
  have hslen : (sortRat l).length = l.length := sortRat_length l
  rw [npMedian]
  try simp only []
  by_cases hodd : (sortRat l).length % 2 = 1
  · rw [if_pos hodd]
    have hi : (sortRat l).length / 2 < (sortRat l).length := by omega
    have hm : (sortRat l).getD ((sortRat l).length / 2) 0 ∈ l :=
      (sortRat_perm l).mem_iff.mp (getD_mem_of_lt _ _ hi)
    exact ⟨npMin_le_mem l _ hm, mem_le_npMax l _ hm⟩
  · rw [if_neg hodd]
    have h2 : 2 ≤ (sortRat l).length := by omega
    have hiA : (sortRat l).length / 2 - 1 < (sortRat l).length := by omega
    have hiB : (sortRat l).length / 2 < (sortRat l).length := by omega
    have hmA : (sortRat l).getD ((sortRat l).length / 2 - 1) 0 ∈ l :=
      (sortRat_perm l).mem_iff.mp (getD_mem_of_lt _ _ hiA)
    have hmB : (sortRat l).getD ((sortRat l).length / 2) 0 ∈ l :=
      (sortRat_perm l).mem_iff.mp (getD_mem_of_lt _ _ hiB)
    have hA1 := npMin_le_mem l _ hmA
    have hA2 := mem_le_npMax l _ hmA
    have hB1 := npMin_le_mem l _ hmB
    have hB2 := mem_le_npMax l _ hmB
    constructor <;> linarith

/-- Bottom/top seeding and Fnorm bounds shared by all three models
(source lines 769-790): min/max of the averaged Fnorms, broad bounds
`[min(0, min-0.5), max(3, max+0.5)]`, swap-if-inverted, nudge-if-equal,
then `np.clip` of both seeds into the bounds. -/
structure SeedBT where
  bottom : ℚ
  top : ℚ
  lo : ℚ
  hi : ℚ
deriving Repr, DecidableEq

def seedBottomTop (fnorms : List ℚ) : SeedBT :=
  let minVal := npMin fnorms
  let maxVal := npMax fnorms
  let lo := min 0 (minVal - 1/2)
  let hi := max 3 (maxVal + 1/2)
  let p := if maxVal < minVal then (maxVal, minVal) else (minVal, maxVal)
  let b := p.1
  let t := if b = p.2 then p.2 + 1/100 else p.2
  { bottom := npClip b lo hi, top := npClip t lo hi, lo := lo, hi := hi }

/-- Initial parameter vector and fitting bounds passed to `curve_fit`. -/
structure FitSetup where
  p0 : List ℚ
  lower : List ℚ
  upper : List ℚ
deriving Repr, DecidableEq

/-- Constant `kd_lower_bound = 1e-12` (source line 805). -/
def kdLowerBound : ℚ := 1/10^12

/-- Constant `kd_upper_bound = 1e-2` (source line 806). -/
def kdUpperBound : ℚ := 1/100

/-- Initial guess `p0_kd_val_avg = max(1e-9, min(median_ligand_conc_avg, c_target, 1e-6))`
(source line 809). -/
def p0KdVal (concs : List ℚ) (cTarget : ℚ) : ℚ :=
  max (1/10^9) (min (npMedian concs) (min cTarget (1/10^6)))

/-- Modelled from the wording of the spec (refinement comparison only): the claimed
`clamp(median(concentration), target concentration, upper bound 1e-6)` read
as the minimum of the three; it lacks the `1e-9` floor the code applies. -/
def p0KdValSpec (concs : List ℚ) (cTarget : ℚ) : ℚ :=
  min (npMedian concs) (min cTarget (1/10^6))

/-- Hill-model seeding and bounds (source lines 792-797); `logConcs` is the
list `np.log10(avg_actual_concs)` computed upstream. -/
def hillFitSetup (logConcs fnorms : List ℚ) : FitSetup :=
  let s := seedBottomTop fnorms
  { p0 := [s.bottom, s.top, npMedian logConcs, 1],
    lower := [s.lo, s.lo, npMin logConcs - 2, 1/10],
    upper := [s.hi, s.hi, npMax logConcs + 2, 5] }

/-- Kd-model seeding and bounds (source lines 804-812). -/
def kdFitSetup (concs fnorms : List ℚ) (cTarget : ℚ) : FitSetup :=
  let s := seedBottomTop fnorms
  { p0 := [s.bottom, s.top, p0KdVal concs cTarget],
    lower := [s.lo, s.lo, kdLowerBound],
    upper := [s.hi, s.hi, kdUpperBound] }

/-- Dose-response seeding and bounds (source lines 820-826). -/
def doseResponseFitSetup (logConcs fnorms : List ℚ) : FitSetup :=
  let s := seedBottomTop fnorms
  { p0 := [s.bottom, s.top, npMedian logConcs, 1],
    lower := [s.lo, s.lo, npMin logConcs - 2, -5],
    upper := [s.hi, s.hi, npMax logConcs + 2, 5] }

/-- Componentwise containment of the initial guess in the fitting bounds. -/
def setupInBounds (fs : FitSetup) : Prop :=
  ∀ k, k < fs.p0.length →
    fs.lower.getD k 0 ≤ fs.p0.getD k 0 ∧ fs.p0.getD k 0 ≤ fs.upper.getD k 0

lemma npClip_bounds (x lo hi : ℚ) (h : lo ≤ hi) :
    lo ≤ npClip x lo hi ∧ npClip x lo hi ≤ hi :=
  ⟨le_min h (le_max_left lo x), min_le_left _ _⟩

lemma npClip_of_le (x lo hi : ℚ) (h1 : lo ≤ x) (h2 : x ≤ hi) :
    npClip x lo hi = x := by
  rw [npClip, max_eq_right h1, min_eq_right h2]

/-- Both clipped seeds land inside the Fnorm bounds. -/
lemma seedBT_inBounds (fnorms : List ℚ) :
    (seedBottomTop fnorms).lo ≤ (seedBottomTop fnorms).bottom
    ∧ (seedBottomTop fnorms).bottom ≤ (seedBottomTop fnorms).hi
    ∧ (seedBottomTop fnorms).lo ≤ (seedBottomTop fnorms).top
    ∧ (seedBottomTop fnorms).top ≤ (seedBottomTop fnorms).hi := by
  have hlohi : (min 0 (npMin fnorms - 1/2) : ℚ) ≤ max 3 (npMax fnorms + 1/2) :=
    le_trans (le_trans (min_le_left _ _) (by norm_num)) (le_max_left _ _)
  simp only [seedBottomTop]
  exact ⟨(npClip_bounds _ _ _ hlohi).1, (npClip_bounds _ _ _ hlohi).2,
    (npClip_bounds _ _ _ hlohi).1, (npClip_bounds _ _ _ hlohi).2⟩

/-- The clipping never cancels the 0.01 nudge: the seeded bottom is strictly
below the seeded top for every nonempty Fnorm list. -/
lemma seedBT_bottom_lt_top (fnorms : List ℚ) (h : fnorms ≠ []) :
    (seedBottomTop fnorms).bottom < (seedBottomTop fnorms).top := by
  have hle := npMin_le_npMax fnorms h
  have hnswap : ¬ (npMax fnorms < npMin fnorms) := not_lt.mpr hle
  have hlo_mn : min 0 (npMin fnorms - 1/2) ≤ npMin fnorms :=
    min_le_iff.mpr (Or.inr (by linarith))
  have hmn_hi : npMin fnorms ≤ max 3 (npMax fnorms + 1/2) :=
    le_max_iff.mpr (Or.inr (by linarith))
  have hlo_mx : min 0 (npMin fnorms - 1/2) ≤ npMax fnorms :=
    le_trans hlo_mn hle
  have hmx_hi : npMax fnorms ≤ max 3 (npMax fnorms + 1/2) :=
    le_max_iff.mpr (Or.inr (by linarith))
  have hlo_t : min 0 (npMin fnorms - 1/2) ≤ npMax fnorms + 1/100 :=
    le_trans hlo_mx (by linarith)
  have ht_hi : npMax fnorms + 1/100 ≤ max 3 (npMax fnorms + 1/2) :=
    le_max_iff.mpr (Or.inr (by linarith))
  simp only [seedBottomTop, hnswap, if_false]
  by_cases heq : npMin fnorms = npMax fnorms
  · rw [if_pos heq, npClip_of_le _ _ _ hlo_mn hmn_hi,
      npClip_of_le _ _ _ hlo_t ht_hi]
    rw [heq]; linarith
  · rw [if_neg heq, npClip_of_le _ _ _ hlo_mn hmn_hi,
      npClip_of_le _ _ _ hlo_mx hmx_hi]
    exact lt_of_le_of_ne hle heq

/-- The Kd initial guess lies in the declared Kd bounds, whatever the median
and target concentration are. -/
lemma p0KdVal_mem_bounds (concs : List ℚ) (cTarget : ℚ) :
    kdLowerBound ≤ p0KdVal concs cTarget ∧ p0KdVal concs cTarget ≤ kdUpperBound := by
  constructor
  · exact le_trans (by norm_num [kdLowerBound]) (le_max_left _ _)
  · exact max_le (by norm_num [kdUpperBound])
      (le_trans (min_le_right _ _)
        (le_trans (min_le_right _ _) (by norm_num [kdUpperBound])))

/-- C7 counterexample: on the three-concentration dataset
`[1e-11, 1e-10, 1e-9]` (median `1e-10`, as produced by the ladder with max
concentration `1e-9` M and dilution factor 10) with target `1e-6`, the coded
Kd initial guess is `1e-9` (its floor applies) while the claimed
`clamp(median, target, 1e-6)` value is `1e-10`. -/
theorem kd_guess_floor_counterexample :
    (kdFitSetup [1/10^11, 1/10^10, 1/10^9] [1, 2, 3] (1/10^6)).p0.getD 2 0 = 1/10^9
    ∧ p0KdValSpec [1/10^11, 1/10^10, 1/10^9] (1/10^6) = 1/10^10
    ∧ (1/10^9 : ℚ) ≠ 1/10^10 := by
  have hmed : npMedian [1/10^11, 1/10^10, 1/10^9] = 1/10^10 := by
    norm_num [npMedian, sortRat, List.insertionSort, List.orderedInsert,
      List.getD_cons_zero, List.getD_cons_succ]
  refine ⟨?_, ?_, by norm_num⟩
  · have h2 : (kdFitSetup [1/10^11, 1/10^10, 1/10^9] [1, 2, 3] (1/10^6)).p0.getD 2 0
        = p0KdVal [1/10^11, 1/10^10, 1/10^9] (1/10^6) := by
      simp [kdFitSetup, List.getD_cons_zero, List.getD_cons_succ]
    rw [h2, p0KdVal, hmed, min_self, min_eq_left (by norm_num),
      max_eq_left (by norm_num)]
  · rw [p0KdValSpec, hmed, min_self, min_eq_left (by norm_num)]

/-- C7 amended: for the Kd (quadratic) model fit, the Kd initial guess
equals `max(1e-9, min(median(concentration), target, 1e-6))` — the claimed
clamp additionally floored at `1e-9` — it always lies inside the Kd fitting
bounds, and those bounds are `[1e-12, 1e-2]` molar. -/
theorem kd_guess_formula_and_bounds :
    ∀ (concs fnorms : List ℚ) (cTarget : ℚ),
      (kdFitSetup concs fnorms cTarget).p0.getD 2 0
          = max (1/10^9) (min (npMedian concs) (min cTarget (1/10^6)))
      ∧ (kdFitSetup concs fnorms cTarget).lower.getD 2 0 = 1/10^12
      ∧ (kdFitSetup concs fnorms cTarget).upper.getD 2 0 = 1/100
      ∧ (kdFitSetup concs fnorms cTarget).lower.getD 2 0
          ≤ (kdFitSetup concs fnorms cTarget).p0.getD 2 0
      ∧ (kdFitSetup concs fnorms cTarget).p0.getD 2 0
          ≤ (kdFitSetup concs fnorms cTarget).upper.getD 2 0 := by
  intro concs fnorms cTarget
  have hp : (kdFitSetup concs fnorms cTarget).p0.getD 2 0
      = p0KdVal concs cTarget := by
    simp [kdFitSetup, List.getD_cons_zero, List.getD_cons_succ]
  have hlo : (kdFitSetup concs fnorms cTarget).lower.getD 2 0 = kdLowerBound := by
    simp [kdFitSetup, List.getD_cons_zero, List.getD_cons_succ]
  have hhi : (kdFitSetup concs fnorms cTarget).upper.getD 2 0 = kdUpperBound := by
    simp [kdFitSetup, List.getD_cons_zero, List.getD_cons_succ]
  obtain ⟨hb1, hb2⟩ := p0KdVal_mem_bounds concs cTarget
  refine ⟨by rw [hp, p0KdVal], by rw [hlo, kdLowerBound], by rw [hhi, kdUpperBound],
    ?_, ?_⟩
  · rw [hp, hlo]; exact hb1
  · rw [hp, hhi]; exact hb2

/-- C10: for every dataset reaching the fitting branch and every model,
the seeded initial parameter vector lies componentwise within the bounds
passed to the fitter, and the seeded bottom is strictly less than the seeded
top. -/
theorem seed_within_bounds :
    ∀ (logConcs concs fnorms : List ℚ) (cTarget : ℚ),
      fnorms ≠ [] → logConcs ≠ [] →
      setupInBounds (hillFitSetup logConcs fnorms)
      ∧ setupInBounds (kdFitSetup concs fnorms cTarget)
      ∧ setupInBounds (doseResponseFitSetup logConcs fnorms)
      ∧ (seedBottomTop fnorms).bottom < (seedBottomTop fnorms).top := by
  intro logConcs concs fnorms cTarget hf hl
  obtain ⟨hbl, hbh, htl, hth⟩ := seedBT_inBounds fnorms
  obtain ⟨hmed1, hmed2⟩ := npMedian_mem_range logConcs hl
  obtain ⟨hkd1, hkd2⟩ := p0KdVal_mem_bounds concs cTarget
  refine ⟨?_, ?_, ?_, seedBT_bottom_lt_top fnorms hf⟩
  · intro k hk
    have hk4 : k < 4 := by simpa [hillFitSetup] using hk
    interval_cases k
    · simp only [hillFitSetup, List.getD_cons_zero]
      exact ⟨hbl, hbh⟩
    · simp only [hillFitSetup, List.getD_cons_succ, List.getD_cons_zero]
      exact ⟨htl, hth⟩
    · simp only [hillFitSetup, List.getD_cons_succ, List.getD_cons_zero]
      constructor <;> linarith
    · simp only [hillFitSetup, List.getD_cons_succ, List.getD_cons_zero]
      norm_num
  · intro k hk
    have hk3 : k < 3 := by simpa [kdFitSetup] using hk
    interval_cases k
    · simp only [kdFitSetup, List.getD_cons_zero]
      exact ⟨hbl, hbh⟩
    · simp only [kdFitSetup, List.getD_cons_succ, List.getD_cons_zero]
      exact ⟨htl, hth⟩
    · simp only [kdFitSetup, List.getD_cons_succ, List.getD_cons_zero]
      exact ⟨hkd1, hkd2⟩
  · intro k hk
    have hk4 : k < 4 := by simpa [doseResponseFitSetup] using hk
    interval_cases k
    · simp only [doseResponseFitSetup, List.getD_cons_zero]
      exact ⟨hbl, hbh⟩
    · simp only [doseResponseFitSetup, List.getD_cons_succ, List.getD_cons_zero]
      exact ⟨htl, hth⟩
    · simp only [doseResponseFitSetup, List.getD_cons_succ, List.getD_cons_zero]
      constructor <;> linarith
    · simp only [doseResponseFitSetup, List.getD_cons_succ, List.getD_cons_zero]
      norm_num

/-- Witness for C10 on the aggregated Fnorms `[1, 2]` and log-concentrations
`[-6, -5, -4]`. -/
theorem seed_within_bounds_witness :
    ([(1:ℚ), 2] ≠ [] ∧ [(-6:ℚ), -5, -4] ≠ [])
    ∧ (setupInBounds (hillFitSetup [-6, -5, -4] [1, 2])
      ∧ setupInBounds (kdFitSetup [1/1000000, 1/100000, 1/10000] [1, 2] (1/1000000))
      ∧ setupInBounds (doseResponseFitSetup [-6, -5, -4] [1, 2])
      ∧ (seedBottomTop [1, 2]).bottom < (seedBottomTop [1, 2]).top) :=
  ⟨⟨by simp, by simp⟩,
    seed_within_bounds [-6, -5, -4] [1/1000000, 1/100000, 1/10000] [1, 2]
      (1/1000000) (by simp) (by simp)⟩

/-- Round half to even at integer precision: the rounding used by the Python
fixed- and scientific-format conversions (exact on the inputs of the claims). -/
def roundHalfEven (q : ℚ) : ℤ :=
  let f := ⌊q⌋
  let frac := q - f
  if frac < 1/2 then f
  else if 1/2 < frac then f + 1
  else if f % 2 = 0 then f else f + 1

/-- A nonnegative count of hundredths rendered as `"<int>.<2 digits>"`. -/
def fixed2OfNat (n : ℕ) : String :=
  toString (n / 100) ++ "." ++ (if n % 100 < 10 then "0" else "") ++ toString (n % 100)

/-- Python fixed-point formatting with two decimals (format spec .2f). -/
def formatFixed2 (x : ℚ) : String :=
  (if x < 0 then "-" else "") ++ fixed2OfNat (roundHalfEven (|x| * 100)).natAbs

/-- Exponent suffix of the Python scientific format: sign always written, at
least two digits. -/
def expSuffix (e : ℤ) : String :=
  (if e < 0 then "-" else "+")
    ++ (if e.natAbs < 10 then "0" else "") ++ toString e.natAbs

/-- Python scientific formatting (format spec .2e): one leading digit, two decimals, signed two-digit
exponent; a mantissa that rounds up to 10 carries into the exponent. -/
def formatSci2 (x : ℚ) : String :=
  if x = 0 then "0.00e+00"
  else
    let sign := if x < 0 then "-" else ""
    let a := |x|
    let e := Int.log 10 a
    let m := (roundHalfEven (a / 10 ^ e * 100)).natAbs
    if 1000 ≤ m then sign ++ "1.00e" ++ expSuffix (e + 1)
    else sign ++ fixed2OfNat m ++ "e" ++ expSuffix e

/-- Embedding of `format_molar_conc` (source lines 1077-1093); a `NaN` input is `none`,
and the displayed unit is passed explicitly. -/
def format_molar_conc (concMolar : Option ℚ) (label : String) (unit : String) : String :=
  match concMolar with
  | none => label ++ " = NaN"
  | some c =>
    if unit = "M" then label ++ " = " ++ formatSci2 c ++ " M"
    else if unit = "mM" then label ++ " = " ++ formatFixed2 (c * 10^3) ++ " mM"
    else if unit = "µM" then label ++ " = " ++ formatFixed2 (c * 10^6) ++ " µM"
    else if unit = "nM" then label ++ " = " ++ formatFixed2 (c * 10^9) ++ " nM"
    else if unit = "pM" then label ++ " = " ++ formatFixed2 (c * 10^12) ++ " pM"
    else label ++ " = " ++ formatSci2 c ++ " M"

lemma roundHalfEven_intCast (n : ℤ) : roundHalfEven (n : ℚ) = n := by
  rw [roundHalfEven]
  try simp only []
  rw [Int.floor_intCast]
  rw [if_pos (by rw [sub_self]; norm_num)]

lemma formatFixed2_1000 : formatFixed2 1000 = "1000.00" := by
  rw [formatFixed2, if_neg (by norm_num : ¬(1000:ℚ) < 0),
    abs_of_nonneg (by norm_num : (0:ℚ) ≤ 1000),
    show (1000:ℚ) * 100 = ((100000:ℤ):ℚ) by norm_num,
    roundHalfEven_intCast]
  rfl

lemma formatSci2_micro : formatSci2 (1/1000000) = "1.00e-06" := by
  have hz : (1/1000000 : ℚ) = (10:ℚ) ^ (-6 : ℤ) := by
    rw [zpow_neg]
    norm_num
  rw [formatSci2, if_neg (by norm_num : ¬(1/1000000 : ℚ) = 0)]
  try simp only []
  rw [if_neg (by norm_num : ¬(1/1000000 : ℚ) < 0),
    abs_of_nonneg (by norm_num : (0:ℚ) ≤ 1/1000000)]
  rw [hz, show (10:ℚ) = ((10:ℕ):ℚ) by norm_num,
    Int.log_zpow (by norm_num : 1 < 10)]
  rw [show ((10:ℕ):ℚ) ^ (-6 : ℤ) / ((10:ℕ):ℚ) ^ (-6 : ℤ) * 100 = ((100:ℤ):ℚ) by
    rw [div_self (zpow_ne_zero _ (by norm_num))]; norm_num]
  rw [roundHalfEven_intCast]
  rfl

/-- C8: the result formatter maps the molar value 1e-6 with label Kd, rendering as `"Kd = 1000.00 nM"`
under unit `nM` and `"Kd = 1.00e-06 M"` under unit `M`; an undefined (NaN)
value formats as `"<label> = NaN"` for every label and unit; any unrecognized
unit selector falls back to molar scientific notation. -/
theorem format_molar_conc_cases :
    format_molar_conc (some (1/1000000)) "Kd" "nM" = "Kd = 1000.00 nM"
    ∧ format_molar_conc (some (1/1000000)) "Kd" "M" = "Kd = 1.00e-06 M"
    ∧ (∀ label unit, format_molar_conc none label unit = label ++ " = NaN")
    ∧ (∀ (v : ℚ) (label unit : String),
        unit ≠ "M" → unit ≠ "mM" → unit ≠ "µM" → unit ≠ "nM" → unit ≠ "pM" →
        format_molar_conc (some v) label unit
          = label ++ " = " ++ formatSci2 v ++ " M") := by
  refine ⟨?_, ?_, fun label unit => rfl, ?_⟩
  · rw [format_molar_conc]
    rw [if_neg (by decide), if_neg (by decide), if_neg (by decide),
      if_pos rfl]
    rw [show (1/1000000 : ℚ) * 10^9 = 1000 by norm_num, formatFixed2_1000]
    rfl
  · rw [format_molar_conc, if_pos rfl, formatSci2_micro]
    rfl
  · intro v label unit h1 h2 h3 h4 h5
    rw [format_molar_conc, if_neg h1, if_neg h2, if_neg h3, if_neg h4, if_neg h5]

/-- Witness for C8: the NaN and fallback conjuncts instantiated at the unit
selector `"moles"`. -/
theorem format_molar_conc_cases_witness :
    format_molar_conc none "Kd" "moles" = "Kd = NaN"
    ∧ ("moles" ≠ "M" ∧ "moles" ≠ "mM" ∧ "moles" ≠ "µM" ∧ "moles" ≠ "nM"
        ∧ "moles" ≠ "pM")
    ∧ format_molar_conc (some (1/1000000)) "Kd" "moles"
        = "Kd" ++ " = " ++ formatSci2 (1/1000000) ++ " M" :=
  ⟨format_molar_conc_cases.2.2.1 "Kd" "moles",
    ⟨by decide, by decide, by decide, by decide, by decide⟩,
    format_molar_conc_cases.2.2.2 (1/1000000) "Kd" "moles" (by decide)
      (by decide) (by decide) (by decide) (by decide)⟩

/-- Witness for C6 at `max_concentration = 0.1` M, `dilution_factor = 2`. -/
theorem ladder_geometric_descending_witness :
    (0:ℚ) < 1/10 ∧ (1:ℚ) < 2
    ∧ ((expectedConcentrations (1/10) 2).length = 16
      ∧ (∀ i, i < 16 →
          (expectedConcentrations (1/10) 2).getD i 0 = (1/10) / 2 ^ i)
      ∧ (∀ i j, i < j → j < 16 →
          (expectedConcentrations (1/10) 2).getD j 0
            < (expectedConcentrations (1/10) 2).getD i 0)) :=
  ⟨by norm_num, by norm_num,
    ladder_geometric_descending.1 (1/10) 2 (by norm_num) (by norm_num)⟩

end MST
